import Mathlib

/-!
Verification development for `terraform_deps.py`, a terraform module
dependency scanner.  The Python program is shallowly embedded here:

* Absolute filesystem paths are lists of segments (the canonical form that
  `os.path.abspath` produces).  `absPath` models
  `os.chdir(d); os.path.abspath(src)` — i.e. `normpath(join(d, src))` —
  and `relpath` models `os.path.relpath` on canonicalized absolute paths.
* A directory tree is a list of `Dir` entries; reading a `.tf` file is
  modelled by the `FileData` stored with each file: `ok raw modules`
  carries the raw text (used by the fast-path substring test
  `"source " in data`) together with the list of module `source`
  attributes that the external hcl2 parser extracts from that text
  (`none` for a module block lacking a `source` attribute, exactly as
  `module_dict.get('source')` yields `None`).  `unreadable` models a file
  whose `open` raises `OSError`; `malformed raw` models a file that hcl2
  fails to parse.
* Python exceptions are an `Except PyErr` result; unbounded recursion is
  made total with an explicit fuel argument, where `PyErr.recursionError`
  is returned when fuel runs out.  A Python run terminates exactly when
  some fuel suffices in the model.
* `functools.lru_cache` on the inner `find_deps_for_dir` is modelled by
  the `cache` field of `BuildSt`: a directory is looked up on entry and
  recorded only after its call completes, exactly as `lru_cache` stores a
  result only when the decorated call returns.
* `os.chdir` is modelled by the `cwd` field of `BuildSt`.
-/

/-- One `.tf` (or other) file's observable content.  `ok raw modules`
pairs the raw text with the hcl2 parse result for its module blocks. -/
inductive FileData where
  | ok (raw : String) (modules : List (Option String))
  | unreadable
  | malformed (raw : String)
deriving DecidableEq, Repr

/-- A directory entry: file name plus its content. -/
structure TfFile where
  name : String
  data : FileData
deriving DecidableEq, Repr

/-- A directory of the modelled tree: its canonical absolute path
(as segments) and its files. -/
structure Dir where
  path : List String
  files : List TfFile
deriving DecidableEq, Repr

/-- The modelled directory tree. -/
abbrev FS := List Dir

/-- Python exceptions that the embedded functions can raise. -/
inductive PyErr where
  | recursionError
  | typeError
  | osError
  | hclError
  | exception
deriving DecidableEq, Repr

instance exceptDecEq {ε α : Type} [DecidableEq ε] [DecidableEq α] :
    DecidableEq (Except ε α)
  | .ok a, .ok b => decidable_of_iff (a = b) (by simp)
  | .ok _, .error _ => isFalse (by simp)
  | .error _, .ok _ => isFalse (by simp)
  | .error e, .error f => decidable_of_iff (e = f) (by simp)

/-- Does `startsWithChars needle hay` hold: is `needle` a leading chunk
of `hay`? -/
def startsWithChars : List Char → List Char → Bool
  | [], _ => true
  | _ :: _, [] => false
  | a :: as, b :: bs => a = b && startsWithChars as bs

/-- `hasSub needle hay` models Python's substring test `needle in hay`. -/
def hasSub (needle : List Char) : List Char → Bool
  | [] => needle.isEmpty
  | h :: t => startsWithChars needle (h :: t) || hasSub needle t

/-- Models `"source " in data` (line 74 of the source). -/
def containsSourceTok (raw : String) : Bool :=
  hasSub "source ".toList raw.toList

/-- Models `"./" in source` (line 104 of the source). -/
def containsDotSlash (s : String) : Bool :=
  hasSub "./".toList s.toList

/-- Normalize path segments against a canonical base, resolving `.`,
`..` and empty segments the way `os.path.normpath` does on an absolute
path. -/
def normSegs : List String → List String → List String
  | base, [] => base
  | base, seg :: rest =>
    if seg = "" ∨ seg = "." then normSegs base rest
    else if seg = ".." then normSegs base.dropLast rest
    else normSegs (base ++ [seg]) rest

/-- Split a character list at `/` into path segments (accumulated as
character lists); splitting the empty text yields one empty segment,
exactly like Python's `"".split("/")`. -/
def splitSegsAux : List Char → List (List Char)
  | [] => [[]]
  | c :: rest =>
    match splitSegsAux rest with
    | s :: ss => if c = '/' then [] :: s :: ss else (c :: s) :: ss
    | [] => [[]]

/-- Split a path string at `/` into its segments. -/
def splitPath (s : String) : List String :=
  (splitSegsAux s.toList).map (fun l => ⟨l⟩)

/-- `strEndsWith s t` models Python's `s.endswith(t)`. -/
def strEndsWith (s t : String) : Bool :=
  startsWithChars t.toList.reverse s.toList.reverse

/-- Models `os.path.abspath(src)` with the process cwd at `cwd`:
`normpath(join(cwd, src))`.  A leading `/` makes `src` absolute. -/
def absPath (cwd : List String) (src : String) : List String :=
  match splitPath src with
  | "" :: rest => normSegs [] rest
  | segs => normSegs cwd segs

/-- Segment form of `os.path.relpath path start` for canonical absolute
paths: strip the common prefix, then one `..` per remaining `start`
segment. -/
def relSegs : List String → List String → List String
  | a :: p, b :: s =>
    if a = b then relSegs p s
    else List.replicate (s.length + 1) ".." ++ (a :: p)
  | p, s => List.replicate s.length ".." ++ p

/-- Models `os.path.relpath(path, start)` (both canonical absolute),
which renders `.` for the empty relative path. -/
def relpath (path start : List String) : String :=
  match relSegs path start with
  | [] => "."
  | segs => String.intercalate "/" segs

/-- Models `extract_sources` (lines 60-80): fast-path substring check on
the raw text, then the hcl2 parse result; an unreadable file raises
`OSError`, and hcl2 raises on a malformed file that the fast path did
not skip. -/
def extract_sources : FileData → Except PyErr (List (Option String))
  | .ok raw mods => if containsSourceTok raw then .ok mods else .ok []
  | .unreadable => .error .osError
  | .malformed raw => if containsSourceTok raw then .error .hclError else .ok []

/-- Modelled from the spec: `extractDeclaredSources` without the
fast-path short-circuit — "output is identical to full parsing" means the
parse result is always consulted.  Used only to compare against the
implemented `extract_sources` (claim about the fast path). -/
def extract_sources_full : FileData → Except PyErr (List (Option String))
  | .ok _ mods => .ok mods
  | .unreadable => .error .osError
  | .malformed _ => .error .hclError

/-- Models `get_tf_files` (lines 82-86): raise when the path is not a
directory of the tree, else list the `.tf` files. -/
def get_tf_files (fs : FS) (dir : List String) : Except PyErr (List TfFile) :=
  match fs.find? (fun d => d.path = dir) with
  | none => .error .exception
  | some d => .ok (d.files.filter (fun f => strEndsWith f.name ".tf"))

/-- The state threaded through `build_dependency_dict`: the process
working directory (mutated by `os.chdir`), the `dependents` defaultdict
(association list of key to dependent set, sets kept as dedup lists in
insertion order), and the `lru_cache` key set of the inner
`find_deps_for_dir` (paths whose call has completed). -/
structure BuildSt where
  cwd : List String
  dependents : List (String × List String)
  cache : List (List String)
deriving DecidableEq, Repr

/-- `dependents[key].add(val)` on the defaultdict-of-sets. -/
def addEdge (m : List (String × List String)) (key val : String) :
    List (String × List String) :=
  match m with
  | [] => [(key, [val])]
  | (k, vs) :: rest =>
    if k = key then (k, if val ∈ vs then vs else vs ++ [val]) :: rest
    else (k, vs) :: addEdge rest key val

/-- `deps_dict.get(k, [])`. -/
def lookupD (m : List (String × List String)) (k : String) : List String :=
  match m with
  | [] => []
  | (k', vs) :: rest => if k' = k then vs else lookupD rest k

/-- Python `set.add` on a set kept as a dedup list. -/
def insertS (x : String) (xs : List String) : List String :=
  if x ∈ xs then xs else xs ++ [x]

mutual

/-- Models the inner `find_deps_for_dir` (lines 98-110): on a cache hit
return at once with no effect (the memoized result is `None`); otherwise
list the `.tf` files, process them, and record the directory in the
cache only after the body completes — exactly `functools.lru_cache`,
which stores a result only when the call returns. -/
def find_deps_for_dir (fs : FS) (start : List String) :
    Nat → List String → BuildSt → Except PyErr BuildSt
  | 0, _, _ => .error .recursionError
  | fuel + 1, tfDir, st =>
    if tfDir ∈ st.cache then .ok st
    else
      match get_tf_files fs tfDir with
      | .error e => .error e
      | .ok files =>
        match deps_files_loop fs start fuel tfDir files st with
        | .error e => .error e
        | .ok st' => .ok { st' with cache := tfDir :: st'.cache }
termination_by structural fuel _ _ => fuel

/-- The `for file in get_tf_files(tf_dir)` loop of `find_deps_for_dir`
(lines 101-110). -/
def deps_files_loop (fs : FS) (start : List String) :
    Nat → List String → List TfFile → BuildSt → Except PyErr BuildSt
  | _, _, [], st => .ok st
  | 0, _, _ :: _, _ => .error .recursionError
  | fuel + 1, tfDir, f :: rest, st =>
    match extract_sources f.data with
    | .error e => .error e
    | .ok sources =>
      match deps_sources_loop fs start fuel tfDir sources st with
      | .error e => .error e
      | .ok st' => deps_files_loop fs start fuel tfDir rest st'
termination_by structural fuel _ _ _ => fuel

/-- The `for source in sources` loop (lines 103-110): `None` from a
module block without a `source` attribute makes `"./" in source` raise
`TypeError`; a source containing `"./"` triggers `os.chdir(tf_dir)`,
resolution against the new cwd, the reversed-edge insertion, and the
recursive expansion of the resolved directory. -/
def deps_sources_loop (fs : FS) (start : List String) :
    Nat → List String → List (Option String) → BuildSt → Except PyErr BuildSt
  | _, _, [], st => .ok st
  | 0, _, _ :: _, _ => .error .recursionError
  | _ + 1, _, none :: _, _ => .error .typeError
  | fuel + 1, tfDir, some s :: rest, st =>
    if containsDotSlash s then
      let st1 : BuildSt := { st with cwd := tfDir }
      let absMod := absPath st1.cwd s
      let st2 : BuildSt :=
        { st1 with
          dependents := addEdge st1.dependents (relpath absMod start)
            (relpath tfDir start) }
      match find_deps_for_dir fs start fuel absMod st2 with
      | .error e => .error e
      | .ok st3 => deps_sources_loop fs start fuel tfDir rest st3
    else deps_sources_loop fs start fuel tfDir rest st
termination_by structural fuel _ _ _ => fuel

end

/-- The `for start_root in roots` loop of `build_dependency_dict`
(lines 112-114): chdir back to `start_dir`, resolve the root against it,
expand. -/
def build_roots_loop (fs : FS) (start : List String) :
    Nat → List String → BuildSt → Except PyErr BuildSt
  | _, [], st => .ok st
  | 0, _ :: _, _ => .error .recursionError
  | fuel + 1, r :: rest, st =>
    let st1 : BuildSt := { st with cwd := start }
    match find_deps_for_dir fs start fuel (absPath st1.cwd r) st1 with
    | .error e => .error e
    | .ok st2 => build_roots_loop fs start fuel rest st2

/-- Models `build_dependency_dict` (lines 89-115).  `cwd0` is the
process working directory on entry; line 96 (`os.chdir(start_dir)`)
replaces it before any other work.  The final state carries the
`dependents` map together with the working directory the call leaves
behind. -/
def build_dependency_dict (fs : FS) (start : List String)
    (roots : List String) (fuel : Nat) (cwd0 : List String) :
    Except PyErr BuildSt :=
  let st0 : BuildSt := { cwd := cwd0, dependents := [], cache := [] }
  let st1 : BuildSt := { st0 with cwd := start }
  build_roots_loop fs start fuel roots st1

mutual

/-- Models `find_mods_affected` (lines 118-123): iterate the direct
dependents of `subject`, adding each to the accumulator and recursing on
it — with no membership test before the recursive call. -/
def find_mods_affected :
    Nat → String → List String → List (String × List String) →
    Except PyErr (List String)
  | 0, _, _, _ => .error .recursionError
  | fuel + 1, subject, modules, deps => affected_loop fuel (lookupD deps subject) modules deps
termination_by structural fuel _ _ _ => fuel

/-- The `for dep in deps_dict.get(subject, [])` loop of
`find_mods_affected`. -/
def affected_loop :
    Nat → List String → List String → List (String × List String) →
    Except PyErr (List String)
  | _, [], modules, _ => .ok modules
  | 0, _ :: _, _, _ => .error .recursionError
  | fuel + 1, dep :: rest, modules, deps =>
    match find_mods_affected fuel dep (insertS dep modules) deps with
    | .error e => .error e
    | .ok m2 => affected_loop fuel rest m2 deps
termination_by structural fuel _ _ _ => fuel

end

/-- Modelled from the spec: a filesystem-relative source is one
"beginning with `./` or `../`".  Used only to compare the spec's
criterion with the implemented substring test. -/
def isRelativeSource (s : String) : Bool :=
  startsWithChars "./".toList s.toList || startsWithChars "../".toList s.toList

/-- Two directories whose declared relative sources point at each other:
`A/main.tf` declares `../B` and `B/main.tf` declares `../A`. -/
def cycFS : FS :=
  [ ⟨["repo", "A"], [⟨"main.tf", .ok "source " [some "../B"]⟩]⟩,
    ⟨["repo", "B"], [⟨"main.tf", .ok "source " [some "../A"]⟩]⟩ ]

/-- A dependency map containing a cycle: `A` is in `deps[B]` and `B` is
in `deps[A]`. -/
def cyclicDeps : List (String × List String) := [("A", ["B"]), ("B", ["A"])]

/-- Diamond-shaped tree: root `R` declares both `A` and `B`, and each of
`A` and `B` declares module `C` — through arbitrary relative source
strings `s1` and `s2`. -/
def diamondFS (s1 s2 : String) : FS :=
  [ ⟨["repo", "R"], [⟨"main.tf", .ok "source " [some "./../A", some "../B"]⟩]⟩,
    ⟨["repo", "A"], [⟨"a.tf", .ok "source " [some s1]⟩]⟩,
    ⟨["repo", "B"], [⟨"b.tf", .ok "source " [some s2]⟩]⟩,
    ⟨["repo", "C"], []⟩ ]

/-- Two roots; the first contains an unreadable declaration file
followed by a healthy one, the second is entirely healthy. -/
def c4FS : FS :=
  [ ⟨["repo", "R1"],
      [⟨"bad.tf", .unreadable⟩, ⟨"good.tf", .ok "source " [some "./m"]⟩]⟩,
    ⟨["repo", "R1", "m"], []⟩,
    ⟨["repo", "R2"], [⟨"ok.tf", .ok "source " [some "./m2"]⟩]⟩,
    ⟨["repo", "R2", "m2"], []⟩ ]

/-- A root declaring the source `x./y`: it contains the substring `./`
but does not begin with `./` or `../`. -/
def c7FS : FS :=
  [ ⟨["repo", "R"], [⟨"main.tf", .ok "source " [some "x./y"]⟩]⟩,
    ⟨["repo", "R", "x.", "y"], []⟩ ]

/-- A root whose declaration file contains a module block with no
`source` attribute (the raw text mentions `source` elsewhere, so the
fast path does not skip the parse). -/
def c9FS : FS :=
  [⟨["repo", "R"], [⟨"main.tf", .ok "# source marker" [none]⟩]⟩]

/-- A one-root, one-module tree used to exercise a successful build. -/
def fsSimple : FS :=
  [ ⟨["repo", "R"], [⟨"main.tf", .ok "source " [some "./m"]⟩]⟩,
    ⟨["repo", "R", "m"], []⟩ ]

/-! ## Claims -/

/-- C9: a module block with no `source` attribute makes `extract_sources`
return a list containing `None`, and `build_dependency_dict` then raises
an uncaught `TypeError` when `"./" in source` tests that `None`, instead
of skipping the block. -/
theorem c9_missing_source_type_error :
    extract_sources (FileData.ok "# source marker" [none]) = .ok [none] ∧
    build_dependency_dict c9FS ["repo"] ["R"] 10 ["repo"] = .error .typeError := by
  decide

/-- C3 counterexample: with the process working directory at
`/home/user`, building an empty root list over start directory `/repo`
leaves the working directory at `/repo`, not at its initial value —
`build_dependency_dict` mutates process-global working-directory state. -/
theorem c3_chdir_counterexample :
    build_dependency_dict [] ["repo"] [] 5 ["home", "user"] =
      .ok ⟨["repo"], [], []⟩ ∧
    (["repo"] : List String) ≠ ["home", "user"] := by
  decide

/-- C3 amended: `build_dependency_dict` chdirs to the start directory
before any other work, so its entire result — returned map and final
working directory alike — is independent of the initial working
directory; but the final working directory is the internally-set one
(for an empty root list, the start directory), not the caller's. -/
theorem c3_amended (fs : FS) (start roots : List String) (fuel : Nat)
    (c c' : List String) :
    build_dependency_dict fs start roots fuel c =
      build_dependency_dict fs start roots fuel c' ∧
    build_dependency_dict fs start [] fuel c = .ok ⟨start, [], []⟩ :=
  ⟨rfl, by cases fuel <;> rfl⟩

/-- C6 counterexample: on a file whose raw text lacks the token
`"source "` but which parses to a module block without a `source`
attribute, the fast path returns `[]` while full parsing returns
`[None]` — the short-circuit changes the output. -/
theorem c6_fast_path_counterexample :
    extract_sources (FileData.ok "module m-block" [none]) ≠
      extract_sources_full (FileData.ok "module m-block" [none]) := by
  decide

/-- C6 amended: the fast path preserves the output of full parsing on a
readable, parseable file whenever the raw text contains `"source "` or
the parse yields no module entries; otherwise it may drop entries. -/
theorem c6_amended (raw : String) (mods : List (Option String))
    (h : containsSourceTok raw = true ∨ mods = []) :
    extract_sources (.ok raw mods) = extract_sources_full (.ok raw mods) := by
  rcases h with h | h
  · simp [extract_sources, extract_sources_full, h]
  · subst h
    cases hc : containsSourceTok raw <;>
      simp [extract_sources, extract_sources_full, hc]

/-- Witness for `c6_amended` at a concrete file. -/
theorem c6_amended_witness :
    containsSourceTok "source = here" = true ∧
    extract_sources (.ok "source = here" [some "./m"]) =
      extract_sources_full (.ok "source = here" [some "./m"]) :=
  ⟨by decide, c6_amended "source = here" [some "./m"] (Or.inl (by decide))⟩

/-- C7 counterexample: the declared source `x./y` does not begin with
`./` or `../`, yet the build records the edge `deps["R/x./y"] = {"R"}`
for it — the code tests substring containment of `./`, not a prefix. -/
theorem c7_substring_counterexample :
    build_dependency_dict c7FS ["repo"] ["R"] 20 ["repo"] =
      .ok ⟨["repo", "R"], [("R/x./y", ["R"])],
        [["repo", "R"], ["repo", "R", "x.", "y"]]⟩ ∧
    isRelativeSource "x./y" = false := by
  decide

/-- C7 amended: processing one declared source records an edge exactly
when the source contains the substring `./` anywhere (every source
beginning with `./` or `../` does; registry sources such as
`hashicorp/consul/aws` do not); the recursion hypothesis that the
resolved directory is already cached isolates the edge-recording step
itself. -/
theorem c7_amended (fs : FS) (start : List String) (fuel : Nat)
    (tfDir : List String) (s : String) (st : BuildSt)
    (h : absPath tfDir s ∈ st.cache) :
    deps_sources_loop fs start (fuel + 3) tfDir [some s] st =
      .ok (if containsDotSlash s then
        { cwd := tfDir,
          dependents := addEdge st.dependents
            (relpath (absPath tfDir s) start) (relpath tfDir start),
          cache := st.cache }
      else st) := by
  cases hc : containsDotSlash s
  · simp [deps_sources_loop, hc]
  · simp [deps_sources_loop, find_deps_for_dir, hc, h]

/-- Witness for `c7_amended`: the registry source
`hashicorp/consul/aws` contributes no edge and changes nothing. -/
theorem c7_amended_witness :
    absPath ["repo", "R"] "hashicorp/consul/aws" ∈
      [["repo", "R", "hashicorp", "consul", "aws"]] ∧
    deps_sources_loop [] ["repo"] 3 ["repo", "R"]
        [some "hashicorp/consul/aws"]
        ⟨["repo"], [], [["repo", "R", "hashicorp", "consul", "aws"]]⟩ =
      .ok (if containsDotSlash "hashicorp/consul/aws" then
        { cwd := ["repo", "R"],
          dependents := addEdge
            ([] : List (String × List String))
            (relpath (absPath ["repo", "R"] "hashicorp/consul/aws") ["repo"])
            (relpath ["repo", "R"] ["repo"]),
          cache := [["repo", "R", "hashicorp", "consul", "aws"]] }
      else ⟨["repo"], [], [["repo", "R", "hashicorp", "consul", "aws"]]⟩) :=
  ⟨by decide,
    c7_amended [] ["repo"] 0 ["repo", "R"] "hashicorp/consul/aws"
      ⟨["repo"], [], [["repo", "R", "hashicorp", "consul", "aws"]]⟩
      (by decide)⟩

/-- C4 counterexample: with an unreadable declaration file in the first
root, the whole build aborts with the uncaught `OSError` — no warning,
no continuation to the healthy file and the healthy second root, and no
map is returned. -/
theorem c4_abort_counterexample :
    build_dependency_dict c4FS ["repo"] ["R1", "R2"] 30 ["repo"] =
      .error .osError ∧
    ¬ ∃ st, build_dependency_dict c4FS ["repo"] ["R1", "R2"] 30 ["repo"] =
      .ok st := by
  refine ⟨by decide, ?_⟩
  rintro ⟨st, h⟩
  rw [show build_dependency_dict c4FS ["repo"] ["R1", "R2"] 30 ["repo"] =
    .error .osError from by decide] at h
  exact Except.noConfusion h

/-- C4 amended: an unreadable declaration file reached during expansion
raises an uncaught `OSError` that aborts the entire scan, at every fuel
large enough to reach the file. -/
theorem c4_amended (fuel : Nat) :
    build_dependency_dict c4FS ["repo"] ["R1", "R2"] (fuel + 3) ["repo"] =
      .error .osError := by
  have aR1 : absPath ["repo"] "R1" = ["repo", "R1"] := rfl
  have g1 : get_tf_files c4FS ["repo", "R1"] =
      .ok [⟨"bad.tf", .unreadable⟩, ⟨"good.tf", .ok "source " [some "./m"]⟩] :=
    rfl
  simp [build_dependency_dict, build_roots_loop, find_deps_for_dir,
    deps_files_loop, aR1, g1, extract_sources]

/-- On the cyclic map `cyclicDeps`, `find_mods_affected` exhausts any
fuel starting from either node: nothing checks membership in the
accumulator before the recursive call, so the mutual recursion between
`A` and `B` never stops. -/
theorem affected_cycle_diverges (fuel : Nat) :
    ∀ modules,
      find_mods_affected fuel "A" modules cyclicDeps = .error .recursionError ∧
      find_mods_affected fuel "B" modules cyclicDeps = .error .recursionError := by
  induction fuel using Nat.strongRecOn with
  | ind fuel ih =>
    match fuel with
    | 0 => exact fun _ => ⟨rfl, rfl⟩
    | 1 => exact fun _ => ⟨rfl, rfl⟩
    | f + 2 =>
      intro m
      have lA : lookupD cyclicDeps "A" = ["B"] := rfl
      have lB : lookupD cyclicDeps "B" = ["A"] := rfl
      constructor
      · have h := (ih f (by omega) (insertS "B" m)).2
        simp [find_mods_affected, affected_loop, lA, h]
      · have h := (ih f (by omega) (insertS "A" m)).1
        simp [find_mods_affected, affected_loop, lB, h]

/-- C2: the dependency map `{A: {B}, B: {A}}` contains a cycle, and the
query `find_mods_affected("A", set(), deps)` recurses forever — the
function tracks no visited set, so no fuel suffices
(CPython raises `RecursionError`). -/
theorem c2_cycle_nontermination (fuel : Nat) :
    find_mods_affected fuel "A" [] cyclicDeps = .error .recursionError :=
  (affected_cycle_diverges fuel []).1

/-- Expanding either directory of the two-cycle `cycFS` exhausts any
fuel: `functools.lru_cache` records a directory only after its call
completes, so the re-entrant call on a directory still being expanded is
a cache miss and the mutual recursion never bottoms out. -/
theorem cyc_expand_diverges (fuel : Nat) :
    ∀ st : BuildSt,
      ["repo", "A"] ∉ st.cache → ["repo", "B"] ∉ st.cache →
      find_deps_for_dir cycFS ["repo"] fuel ["repo", "A"] st =
        .error .recursionError ∧
      find_deps_for_dir cycFS ["repo"] fuel ["repo", "B"] st =
        .error .recursionError := by
  induction fuel using Nat.strongRecOn with
  | ind fuel ih =>
    intro st hA hB
    have gA : get_tf_files cycFS ["repo", "A"] =
        .ok [⟨"main.tf", .ok "source " [some "../B"]⟩] := rfl
    have gB : get_tf_files cycFS ["repo", "B"] =
        .ok [⟨"main.tf", .ok "source " [some "../A"]⟩] := rfl
    have eA : extract_sources (FileData.ok "source " [some "../B"]) =
        .ok [some "../B"] := rfl
    have eB : extract_sources (FileData.ok "source " [some "../A"]) =
        .ok [some "../A"] := rfl
    have cA : containsDotSlash "../B" = true := rfl
    have cB : containsDotSlash "../A" = true := rfl
    have aA : absPath ["repo", "A"] "../B" = ["repo", "B"] := rfl
    have aB : absPath ["repo", "B"] "../A" = ["repo", "A"] := rfl
    match fuel with
    | 0 => exact ⟨rfl, rfl⟩
    | 1 =>
      constructor <;>
        simp [find_deps_for_dir, hA, hB, gA, gB, deps_files_loop]
    | 2 =>
      constructor <;>
        simp [find_deps_for_dir, hA, hB, gA, gB, eA, eB, deps_files_loop,
          deps_sources_loop]
    | f + 3 =>
      constructor
      · simp [find_deps_for_dir, deps_files_loop, deps_sources_loop, hA, hB,
          gA, eA, cA, aA]
        rw [(ih f (by omega) _ (by simpa using hA) (by simpa using hB)).2]
      · simp [find_deps_for_dir, deps_files_loop, deps_sources_loop, hA, hB,
          gB, eB, cB, aB]
        rw [(ih f (by omega) _ (by simpa using hA) (by simpa using hB)).1]

/-- C1: on the cyclic root list (`A` declares `../B`, `B` declares
`../A`), `build_dependency_dict` does not terminate: no fuel ever
suffices, because the `lru_cache` memoization only takes effect after a
call returns and so never interrupts the cycle (CPython raises
`RecursionError`). -/
theorem c1_cycle_nontermination (fuel : Nat) (cwd0 : List String) :
    build_dependency_dict cycFS ["repo"] ["A"] fuel cwd0 =
      .error .recursionError := by
  match fuel with
  | 0 => rfl
  | f + 1 =>
    have h := (cyc_expand_diverges f ⟨["repo"], [], []⟩
      (by decide) (by decide)).1
    have aR : absPath ["repo"] "A" = ["repo", "A"] := rfl
    simp [build_dependency_dict, build_roots_loop, aR, h]

/-- C8: the only process state suriving a call to
`build_dependency_dict` is the working directory, and the function
overwrites it with `start_dir` before doing anything; hence a second run
launched from the working directory the first run left behind returns
the identical dependency map. -/
theorem c8_idempotent (fs : FS) (start roots : List String) (fuel : Nat)
    (cwd0 : List String) (st1 : BuildSt)
    (h : build_dependency_dict fs start roots fuel cwd0 = .ok st1) :
    (build_dependency_dict fs start roots fuel st1.cwd).map
      (fun st => st.dependents) = .ok st1.dependents := by
  have hcwd : build_dependency_dict fs start roots fuel st1.cwd =
      build_dependency_dict fs start roots fuel cwd0 := rfl
  rw [hcwd, h]
  rfl

/-- Witness for `c8_idempotent` on the one-root tree `fsSimple`. -/
theorem c8_idempotent_witness :
    (build_dependency_dict fsSimple ["repo"] ["R"] 10 ["repo", "R"]).map
      (fun st => st.dependents) = .ok [("R/m", ["R"])] :=
  c8_idempotent fsSimple ["repo"] ["R"] 10 ["repo"]
    ⟨["repo", "R"], [("R/m", ["R"])], [["repo", "R"], ["repo", "R", "m"]]⟩
    (by decide)

/-- The accumulator is contained in whatever `insertS` makes of it. -/
theorem subset_insertS (x : String) (m : List String) : m ⊆ insertS x m := by
  unfold insertS
  split
  · exact List.Subset.refl m
  · exact List.subset_append_left m [x]

/-- Whenever the affected-modules query returns, the returned set
contains the accumulator it was given: the code only ever adds. -/
theorem affected_subset (fuel : Nat) :
    (∀ s m d r, find_mods_affected fuel s m d = .ok r → m ⊆ r) ∧
    (∀ L m d r, affected_loop fuel L m d = .ok r → m ⊆ r) := by
  induction fuel with
  | zero =>
    constructor
    · intro s m d r h
      exact absurd h (by simp [find_mods_affected])
    · intro L m d r h
      cases L with
      | nil =>
        simp only [affected_loop, Except.ok.injEq] at h
        subst h
        exact List.Subset.refl m
      | cons dep rest => exact absurd h (by simp [affected_loop])
  | succ fuel ih =>
    constructor
    · intro s m d r h
      simp only [find_mods_affected] at h
      exact ih.2 _ _ _ _ h
    · intro L m d r h
      cases L with
      | nil =>
        simp only [affected_loop, Except.ok.injEq] at h
        subst h
        exact List.Subset.refl m
      | cons dep rest =>
        simp only [affected_loop] at h
        cases hf : find_mods_affected fuel dep (insertS dep m) d with
        | error e => rw [hf] at h; cases h
        | ok m2 =>
          rw [hf] at h
          exact ((subset_insertS dep m).trans (ih.1 _ _ _ _ hf)).trans
            (ih.2 _ _ _ _ h)

/-- A successful affected-modules query stays successful, with the same
result, when one more unit of fuel is supplied. -/
theorem affected_mono (fuel : Nat) :
    (∀ s m d r, find_mods_affected fuel s m d = .ok r →
      find_mods_affected (fuel + 1) s m d = .ok r) ∧
    (∀ L m d r, affected_loop fuel L m d = .ok r →
      affected_loop (fuel + 1) L m d = .ok r) := by
  induction fuel with
  | zero =>
    constructor
    · intro s m d r h
      exact absurd h (by simp [find_mods_affected])
    · intro L m d r h
      cases L with
      | nil => exact h
      | cons dep rest => exact absurd h (by simp [affected_loop])
  | succ fuel ih =>
    constructor
    · intro s m d r h
      simp only [find_mods_affected] at h ⊢
      exact ih.2 _ _ _ _ h
    · intro L m d r h
      cases L with
      | nil => exact h
      | cons dep rest =>
        simp only [affected_loop] at h ⊢
        cases hf : find_mods_affected fuel dep (insertS dep m) d with
        | error e => rw [hf] at h; cases h
        | ok m2 =>
          rw [hf] at h
          rw [ih.1 _ _ _ _ hf]
          exact ih.2 _ _ _ _ h

/-- Fuel monotonicity, `≤` form. -/
theorem affected_mono_le {fuel fuel' : Nat} (hle : fuel ≤ fuel') :
    (∀ s m d r, find_mods_affected fuel s m d = .ok r →
      find_mods_affected fuel' s m d = .ok r) ∧
    (∀ L m d r, affected_loop fuel L m d = .ok r →
      affected_loop fuel' L m d = .ok r) := by
  induction fuel', hle using Nat.le_induction with
  | base => exact ⟨fun _ _ _ _ h => h, fun _ _ _ _ h => h⟩
  | succ n hn ih =>
    exact ⟨fun s m d r h => (affected_mono n).1 _ _ _ _ (ih.1 _ _ _ _ h),
      fun L m d r h => (affected_mono n).2 _ _ _ _ (ih.2 _ _ _ _ h)⟩

/-- On a dependency map admitting a rank function (every edge strictly
decreases the rank — the standard witness that a finite map is acyclic),
the affected-modules query terminates: some fuel returns a result. -/
theorem affected_exists_of_rank (d : List (String × List String))
    (rank : String → Nat)
    (hr : ∀ a b, b ∈ lookupD d a → rank b < rank a) :
    ∀ n s, rank s ≤ n → ∀ m,
      ∃ fuel r, find_mods_affected fuel s m d = .ok r := by
  have loopEx : ∀ L : List String,
      (∀ dep ∈ L, ∀ m', ∃ fuel r, find_mods_affected fuel dep m' d = .ok r) →
      ∀ m', ∃ fuel r, affected_loop fuel L m' d = .ok r := by
    intro L
    induction L with
    | nil => exact fun _ m' => ⟨0, m', rfl⟩
    | cons dep rest ihL =>
      intro hAll m'
      obtain ⟨f1, m2, hf⟩ := hAll dep (List.mem_cons_self dep rest) (insertS dep m')
      obtain ⟨f2, r, hl⟩ :=
        ihL (fun x hx m'' => hAll x (List.mem_cons_of_mem dep hx) m'') m2
      refine ⟨max f1 f2 + 1, r, ?_⟩
      have hf' := (affected_mono_le (le_max_left f1 f2)).1 _ _ _ _ hf
      have hl' := (affected_mono_le (le_max_right f1 f2)).2 _ _ _ _ hl
      simp only [affected_loop]
      rw [hf']
      exact hl'
  intro n
  induction n with
  | zero =>
    intro s hs m
    obtain ⟨f, r, hl⟩ := loopEx (lookupD d s)
      (fun dep hdep _ =>
        absurd (Nat.lt_of_lt_of_le (hr s dep hdep) hs) (Nat.not_lt_zero _)) m
    exact ⟨f + 1, r, by simp only [find_mods_affected]; exact hl⟩
  | succ n ih =>
    intro s hs m
    obtain ⟨f, r, hl⟩ := loopEx (lookupD d s)
      (fun dep hdep m' => ih dep (by
        have := hr s dep hdep
        omega) m') m
    exact ⟨f + 1, r, by simp only [find_mods_affected]; exact hl⟩

/-- C10: on an acyclic dependency map (witnessed by a rank function that
every edge strictly decreases), `find_mods_affected` terminates, and the
set it returns is always a superset of the initial accumulator: elements
passed in are never removed. -/
theorem c10_superset (deps : List (String × List String))
    (rank : String → Nat)
    (hr : ∀ a b, b ∈ lookupD deps a → rank b < rank a)
    (subject : String) (modules : List String) :
    (∀ fuel r, find_mods_affected fuel subject modules deps = .ok r →
      modules ⊆ r) ∧
    (∃ fuel r, find_mods_affected fuel subject modules deps = .ok r ∧
      modules ⊆ r) := by
  constructor
  · intro fuel r h
    exact (affected_subset fuel).1 _ _ _ _ h
  · obtain ⟨fuel, r, h⟩ :=
      affected_exists_of_rank deps rank hr (rank subject) subject le_rfl modules
    exact ⟨fuel, r, h, (affected_subset fuel).1 _ _ _ _ h⟩

/-- Witness for `c10_superset` on the acyclic chain `C ← B ← A` with a
nonempty initial accumulator. -/
theorem c10_superset_witness :
    (∀ fuel r,
      find_mods_affected fuel "C" ["Z"] [("C", ["B"]), ("B", ["A"])] = .ok r →
      ["Z"] ⊆ r) ∧
    (∃ fuel r,
      find_mods_affected fuel "C" ["Z"] [("C", ["B"]), ("B", ["A"])] = .ok r ∧
      ["Z"] ⊆ r) :=
  c10_superset [("C", ["B"]), ("B", ["A"])]
    (fun s => if s = "C" then 2 else if s = "B" then 1 else 0)
    (by
      intro a b hb
      by_cases h1 : a = "C"
      · subst h1
        rw [show lookupD [("C", ["B"]), ("B", ["A"])] "C" = ["B"] from rfl] at hb
        simp only [List.mem_singleton] at hb
        subst hb
        decide
      · by_cases h2 : a = "B"
        · subst h2
          rw [show lookupD [("C", ["B"]), ("B", ["A"])] "B" = ["A"] from rfl] at hb
          simp only [List.mem_singleton] at hb
          subst hb
          decide
        · have hnil : lookupD [("C", ["B"]), ("B", ["A"])] a = [] := by
            simp [lookupD, Ne.symm h1, Ne.symm h2]
          rw [hnil] at hb
          exact absurd hb (List.not_mem_nil b))
    "C" ["Z"]

/-- C5: in the diamond (`R` declares `A` and `B`; `A` and `B` each
declare `C` through arbitrary relative source strings `s1` and `s2` that
resolve to `C`'s directory), the two references normalize to the single
canonical identity `"C"`, and `deps["C"]` is exactly `{A, B}` — no
duplicate and no path-variant entry, whichever string form each
reference used. -/
theorem c5_diamond (s1 s2 : String)
    (h1 : containsDotSlash s1 = true)
    (h2 : absPath ["repo", "A"] s1 = ["repo", "C"])
    (h3 : containsDotSlash s2 = true)
    (h4 : absPath ["repo", "B"] s2 = ["repo", "C"]) :
    build_dependency_dict (diamondFS s1 s2) ["repo"] ["R"] 30 ["repo"] =
      .ok ⟨["repo", "B"], [("A", ["R"]), ("C", ["A", "B"]), ("B", ["R"])],
        [["repo", "R"], ["repo", "B"], ["repo", "A"], ["repo", "C"]]⟩ ∧
    lookupD [("A", ["R"]), ("C", ["A", "B"]), ("B", ["R"])] "C" =
      ["A", "B"] := by
  refine ⟨?_, rfl⟩
  have gR : get_tf_files (diamondFS s1 s2) ["repo", "R"] =
      .ok [⟨"main.tf", .ok "source " [some "./../A", some "../B"]⟩] := rfl
  have gA : get_tf_files (diamondFS s1 s2) ["repo", "A"] =
      .ok [⟨"a.tf", .ok "source " [some s1]⟩] := rfl
  have gB : get_tf_files (diamondFS s1 s2) ["repo", "B"] =
      .ok [⟨"b.tf", .ok "source " [some s2]⟩] := rfl
  have gC : get_tf_files (diamondFS s1 s2) ["repo", "C"] = .ok [] := rfl
  have eR : extract_sources
      (FileData.ok "source " [some "./../A", some "../B"]) =
      .ok [some "./../A", some "../B"] := rfl
  have eA : extract_sources (FileData.ok "source " [some s1]) =
      .ok [some s1] := rfl
  have eB : extract_sources (FileData.ok "source " [some s2]) =
      .ok [some s2] := rfl
  have cR1 : containsDotSlash "./../A" = true := rfl
  have cR2 : containsDotSlash "../B" = true := rfl
  have aR1 : absPath ["repo", "R"] "./../A" = ["repo", "A"] := rfl
  have aR2 : absPath ["repo", "R"] "../B" = ["repo", "B"] := rfl
  have aS : absPath ["repo"] "R" = ["repo", "R"] := rfl
  have rA : relpath ["repo", "A"] ["repo"] = "A" := rfl
  have rB : relpath ["repo", "B"] ["repo"] = "B" := rfl
  have rC : relpath ["repo", "C"] ["repo"] = "C" := rfl
  have rR : relpath ["repo", "R"] ["repo"] = "R" := rfl
  simp [build_dependency_dict, build_roots_loop, find_deps_for_dir,
    deps_files_loop, deps_sources_loop, aS, gR, gA, gB, gC, eR, eA, eB,
    cR1, cR2, aR1, aR2, h1, h2, h3, h4, rA, rB, rC, rR, addEdge]

/-- Witness for `c5_diamond` with two different concrete source
strings, `../C` and `./../C/.`, both resolving to `C`. -/
theorem c5_diamond_witness :
    (containsDotSlash "../C" = true ∧
      absPath ["repo", "A"] "../C" = ["repo", "C"] ∧
      containsDotSlash "./../C/." = true ∧
      absPath ["repo", "B"] "./../C/." = ["repo", "C"]) ∧
    (build_dependency_dict (diamondFS "../C" "./../C/.") ["repo"] ["R"] 30
        ["repo"] =
      .ok ⟨["repo", "B"], [("A", ["R"]), ("C", ["A", "B"]), ("B", ["R"])],
        [["repo", "R"], ["repo", "B"], ["repo", "A"], ["repo", "C"]]⟩ ∧
    lookupD [("A", ["R"]), ("C", ["A", "B"]), ("B", ["R"])] "C" =
      ["A", "B"]) :=
  ⟨by decide,
    c5_diamond "../C" "./../C/." (by decide) (by decide) (by decide)
      (by decide)⟩
